import Mathlib

/-!
Verification development for `pyQCReps.py`, a module that fetches CO-OPS
quality-control reports over FTP, parses them with `numpy.genfromtxt`,
enriches each parsed record with station metadata from the CO-OPS
DataGetter API, and exports the result as an ESRI shapefile.

The embedding below translates the source module function by function:

* `parse_report` (`Report.parse_report`): `np.genfromtxt` is modelled by
  `gfRows` (header skipping, comment stripping, empty-row dropping,
  footer-row stripping) composed with a per-report-type row conversion
  (`invalidConv`, `qcConv`).  The `'invalid'` branch passes no
  `delimiter`, so lines are split on runs of whitespace (`delimSplit`);
  the `'qc_check'` branch passes the fixed width table
  `[8,2,3,9,7,6,6,7,7,7,8,8]` (`widthSplit`).
* `get_report` (`Report.get_report`): day validation, the int-to-string
  mutation of `self.day`, and URL construction.  The module targets
  Python 2 (`basestring`, `dict.iteritems`), so the chained comparison
  `0 < self.day <= 31` on a `str` day is modelled with Python 2 mixed-type
  ordering: every int sorts below every str, hence the comparison is False.
* `list_stations` (`Report.list_stations`): one `Station` per parsed
  record, appended to `self.stnlist`, each performing one metadata fetch.
* `get_station` (`Station.get_station`): JSON responses are modelled by
  `JVal`/`JObj`; the recursive unicode-to-str normalization `convert` is
  modelled structurally (string payloads are a single text type here).
* `create_shapefile` (`Report.create_shapefile`): modelled as a trace of
  observable events (`Ev`): deleting/creating the data source, skipping an
  errored station with a diagnostic, committing a feature.  Machine floats
  from Python `float(...)` are modelled exactly: the module only parses
  decimal literals and truncates them with `int(...)`, it performs no float
  arithmetic, so a parsed value is represented by the exact decimal
  `Dec.num / 10 ^ Dec.exp` it denotes.

Lines of text are embedded as `List Char`.
-/

namespace PyQCReps

abbrev Line := List Char

/-- Whitespace test used by Python `str.split()` and `str.strip()` for the
characters that can occur in these fixed-width reports. -/
def isSpaceC (c : Char) : Bool := c = ' ' || c = '\t'

/-- Python `str.strip()`: drop leading and trailing whitespace. -/
def trimL (l : Line) : Line :=
  ((l.dropWhile isSpaceC).reverse.dropWhile isSpaceC).reverse

/-- numpy `LineSplitter` comment handling: `line.split('#')[0]`. -/
def stripComment (l : Line) : Line := l.takeWhile (fun c => c ≠ '#')

/-- Worker for `wsTokens`; `acc` holds the current token reversed. -/
def wsTokensGo : Line → Line → List Line
  | [], acc => if acc = [] then [] else [acc.reverse]
  | c :: rest, acc =>
    if isSpaceC c then
      if acc = [] then wsTokensGo rest [] else acc.reverse :: wsTokensGo rest []
    else wsTokensGo rest (c :: acc)

/-- Python `str.split()` with no argument: split on runs of whitespace,
dropping empty tokens. -/
def wsTokens (l : Line) : List Line := wsTokensGo l []

/-- numpy `LineSplitter` with `delimiter=None`, as `genfromtxt` uses for the
invalid-error report (no `delimiter` keyword is passed in the source):
strip the comment part, then split the line on whitespace. -/
def delimSplit (l : Line) : List Line := wsTokens (stripComment l)

/-- Cut a line into consecutive chunks of the given widths (numpy builds
`slice` objects from the cumulative sums of the width list). -/
def splitWidths : List Nat → Line → List Line
  | [], _ => []
  | w :: ws, l => l.take w :: splitWidths ws (l.drop w)

/-- numpy `LineSplitter` with a list of fixed column widths plus
`autostrip=True`: an empty line (after comment stripping) yields no row;
otherwise the line is cut at the fixed widths and each field stripped. -/
def widthSplit (ws : List Nat) (l : Line) : List Line :=
  let l' := stripComment l
  if l' = [] then [] else (splitWidths ws l').map trimL

/-- Core row extraction of `np.genfromtxt`: skip `h` raw header lines,
split every remaining line, drop lines that produced no fields (blank or
comment-only lines), then strip the last `f` collected rows
(`skip_footer`). -/
def gfRows (split : Line → List Line) (h f : Nat) (lines : List Line) :
    List (List Line) :=
  let rows := ((lines.drop h).map split).filter (fun r => !r.isEmpty)
  rows.take (rows.length - f)

/-- Convert every collected row; any row the dtype converters reject makes
`genfromtxt` raise, modelled by `none`. -/
def convRows {α : Type} (conv : List Line → Option α) :
    List (List Line) → Option (List α)
  | [] => some []
  | r :: rs =>
    (conv r).bind (fun a => (convRows conv rs).map (fun tl => a :: tl))

/-- Value of a list of decimal digit characters. -/
def digitsVal (l : Line) : Nat :=
  l.foldl (fun a c => 10 * a + (c.toNat - 48)) 0

/-- Python `int(...)` on an already-stripped string of decimal digits. -/
def parseNat (l : Line) : Option Nat :=
  if !l.isEmpty && l.all Char.isDigit then some (digitsVal l) else none

/-- Python `int(...)` with an optional sign, as used by the `genfromtxt`
integer converter on stripped fields. -/
def parseInt (l : Line) : Option Int :=
  match l with
  | [] => none
  | c :: r =>
    if c = '+' then (parseNat r).map Int.ofNat
    else if c = '-' then (parseNat r).map (fun n => -(n : Int))
    else (parseNat (c :: r)).map Int.ofNat

/-- Exact decimal value `num / 10 ^ exp` of a parsed Python float literal.
The source only parses float fields and truncates them with `int(...)`; it
performs no floating-point arithmetic, so this representation is exact. -/
structure Dec where
  num : Int
  exp : Nat
deriving DecidableEq

/-- Negation of a parsed decimal value. -/
def Dec.neg (d : Dec) : Dec := ⟨-d.num, d.exp⟩

/-- Magnitude part of Python `float(...)` on the decimal forms occurring in
these reports: digits, optionally with one decimal point on either side. -/
def parseFloatMag (l : Line) : Option Dec :=
  let ip := l.takeWhile (fun c => c ≠ '.')
  match l.dropWhile (fun c => c ≠ '.') with
  | [] => (parseNat ip).map (fun n => ⟨(n : Int), 0⟩)
  | _ :: fp =>
    if (!ip.isEmpty || !fp.isEmpty) && ip.all Char.isDigit && fp.all Char.isDigit
    then some ⟨(digitsVal ip : Int) * 10 ^ fp.length + (digitsVal fp : Int),
               fp.length⟩
    else none

/-- Python `float(...)` with an optional sign. -/
def parseFloat (l : Line) : Option Dec :=
  match l with
  | [] => none
  | c :: r =>
    if c = '+' then parseFloatMag r
    else if c = '-' then (parseFloatMag r).map Dec.neg
    else parseFloatMag (c :: r)

/-- One parsed line of the Invalid Error Report, dtype
`('|S7', '|S1', '|S2', int)` with names `Station, DCP, Sensor, Received`.
numpy silently truncates a longer field when storing it into `|Sn`. -/
structure InvalidRecord where
  station : Line
  dcp : Line
  sensor : Line
  received : Int
deriving DecidableEq

/-- One parsed line of the Data Quality Control Report, dtype
`('|S7','|S1','|S2', int, float, int, int, int, int, int, int, int)`. -/
structure QcRecord where
  station : Line
  dcp : Line
  sensor : Line
  data_received : Int
  percent_data : Dec
  flat : Int
  rofc : Int
  temp : Int
  height : Int
  exceed_limits : Int
  prim_backup : Int
  prim_predict : Int
deriving DecidableEq

/-- dtype conversion of one row of the invalid-error report. -/
def invalidConv (fields : List Line) : Option InvalidRecord :=
  match fields with
  | [s, d, se, r] =>
    (parseInt r).map (fun n => ⟨s.take 7, d.take 1, se.take 2, n⟩)
  | _ => none

/-- dtype conversion of one row of the qc-check report. -/
def qcConv (fields : List Line) : Option QcRecord :=
  match fields with
  | [s, d, se, g3, g4, g5, g6, g7, g8, g9, g10, g11] =>
    match parseInt g3, parseFloat g4, parseInt g5, parseInt g6, parseInt g7,
          parseInt g8, parseInt g9, parseInt g10, parseInt g11 with
    | some a3, some a4, some a5, some a6, some a7, some a8, some a9,
      some a10, some a11 =>
      some ⟨s.take 7, d.take 1, se.take 2, a3, a4, a5, a6, a7, a8, a9, a10, a11⟩
    | _, _, _, _, _, _, _, _, _ => none
  | _ => none

/-- Fixed column-width table the source passes for the qc-check report. -/
def qcWidths : List Nat := [8, 2, 3, 9, 7, 6, 6, 7, 7, 7, 8, 8]

/-- The `'invalid'` branch of `Report.parse_report`:
`np.genfromtxt(..., skip_header=7, skip_footer=2, autostrip=True,
dtype=('|S7','|S1','|S2',int))` with the default whitespace delimiter. -/
def parse_invalid (lines : List Line) : Option (List InvalidRecord) :=
  convRows invalidConv (gfRows delimSplit 7 2 lines)

/-- The `'qc_check'` branch of `Report.parse_report`:
`np.genfromtxt(..., skip_header=13, skip_footer=28, autostrip=True,
delimiter=[8,2,3,9,7,6,6,7,7,7,8,8], dtype=(...))`. -/
def parse_qc_check (lines : List Line) : Option (List QcRecord) :=
  convRows qcConv (gfRows (widthSplit qcWidths) 13 28 lines)

/-- Report types accepted by the `Report` class. -/
inductive RType
  | invalid
  | qc_check
  | qc_flat
  | data_source
deriving DecidableEq

/-- Parsed data held in `self.data`, tagged by the record layout. -/
inductive ParseResult
  | invalidData (rows : List InvalidRecord)
  | qcData (rows : List QcRecord)
deriving DecidableEq

/-- `Report.parse_report`: dispatch on `self.r_type`.  The `qc_flat` and
`data_source` branches are commented out in the source, so those types fall
through to `raise NameError('Report type not supported!')`.  A row the
numpy converters reject makes `genfromtxt` itself raise, modelled by the
`"genfromtxt"` error. -/
def parse_report (rt : RType) (lines : List Line) : Except String ParseResult :=
  match rt with
  | .invalid =>
    match parse_invalid lines with
    | some d => .ok (.invalidData d)
    | none => .error "genfromtxt"
  | .qc_check =>
    match parse_qc_check lines with
    | some d => .ok (.qcData d)
    | none => .error "genfromtxt"
  | _ => .error "Report type not supported!"

/-- Value of `self.day`: an `int` as passed to the constructor, or the
zero-padded `str` that `get_report` overwrites it with. -/
inductive DayVal
  | int (d : Int)
  | str (s : Line)
deriving DecidableEq

/-- The `Report` attributes that `get_report` reads and writes. -/
structure ReportState where
  r_type : RType
  day : DayVal
deriving DecidableEq

/-- Python 2 evaluation of the chained comparison `0 < self.day <= 31`.
When `day` is an `int` this is ordinary integer comparison.  When `day` is
a `str` (as it is after a previous `get_report` call rewrote it), Python 2
orders every `int` below every `str`, so `0 < day` holds but `day <= 31`
is False, making the whole chain False. -/
def dayOk : DayVal → Bool
  | .int d => decide (0 < d) && decide (d ≤ 31)
  | .str _ => false

/-- Python `str(...)` of the (positive) day value reached in the valid-day
branch. -/
def strOfInt (d : Int) : Line := Nat.toDigits 10 d.toNat

/-- The day mutation in `get_report`:
`self.day = '0' + str(self.day)` below 10, else `self.day = str(self.day)`. -/
def padDay (d : Int) : Line :=
  if d < 10 then '0' :: strOfInt d else strOfInt d

/-- Prefix of `base_url` in `get_report`. -/
def base_url_head : Line :=
  "ftp://tidepool.nos.noaa.gov/pub/outgoing/reports/".data

/-- Report file name appended to `base_url`, switched on `r_type`. -/
def report_filename : RType → Line
  | .invalid => "/INVALID_ERROR_REPORT.1105".data
  | .qc_check => "/QC_CHECK.1040".data
  | .qc_flat => "/QC_FLAT.1040".data
  | .data_source => "/DAILY_DATA_STATUS.1040".data

/-- `Report.get_report` up to the network boundary: validate and rewrite
`self.day`, then build the report URL that is handed to `get_url`.  An
invalid day raises `NameError('Invalid day of month specified!')` before
`base_url` is built, so no URL exists and no fetch can be issued; this is
modelled by returning the error with no URL component. -/
def get_report (st : ReportState) : Except String (ReportState × Line) :=
  if dayOk st.day then
    let ds : Line :=
      match st.day with
      | .int d => padDay d
      | .str s => s
    .ok ({ st with day := .str ds },
         base_url_head ++ ds ++ report_filename st.r_type)
  else
    .error "Invalid day of month specified!"

/-- JSON values occurring in a DataGetter response: strings and nested
objects. -/
inductive JVal
  | s (v : Line)
  | o (fields : List (Line × JVal))

mutual

/-- Boolean equality on JSON values. -/
def JVal.beq : JVal → JVal → Bool
  | .s a, .s b => a == b
  | .o a, .o b => JVal.beqFields a b
  | _, _ => false

/-- Boolean equality on JSON object field lists. -/
def JVal.beqFields : List (Line × JVal) → List (Line × JVal) → Bool
  | [], [] => true
  | (k1, v1) :: r1, (k2, v2) :: r2 =>
    k1 == k2 && JVal.beq v1 v2 && JVal.beqFields r1 r2
  | _, _ => false

end

mutual

theorem JVal.eq_of_beq : ∀ {a b : JVal}, JVal.beq a b = true → a = b
  | .s a, .s b, h => by
    simp only [JVal.beq, beq_iff_eq] at h; rw [h]
  | .o a, .o b, h => by
    rw [JVal.eq_of_beqFields (a := a) (b := b) (by simpa [JVal.beq] using h)]
  | .s _, .o _, h => by simp [JVal.beq] at h
  | .o _, .s _, h => by simp [JVal.beq] at h

theorem JVal.eq_of_beqFields :
    ∀ {a b : List (Line × JVal)}, JVal.beqFields a b = true → a = b
  | [], [], _ => rfl
  | (k1, v1) :: r1, (k2, v2) :: r2, h => by
    simp only [JVal.beqFields, Bool.and_eq_true, beq_iff_eq] at h
    rw [h.1.1, JVal.eq_of_beq h.1.2, JVal.eq_of_beqFields h.2]
  | [], _ :: _, h => by simp [JVal.beqFields] at h
  | _ :: _, [], h => by simp [JVal.beqFields] at h

end

mutual

theorem JVal.beq_refl : ∀ a : JVal, JVal.beq a a = true
  | .s a => by simp [JVal.beq]
  | .o a => by simpa [JVal.beq] using JVal.beqFields_refl a

theorem JVal.beqFields_refl : ∀ a : List (Line × JVal), JVal.beqFields a a = true
  | [] => rfl
  | (k, v) :: r => by
    simp [JVal.beqFields, JVal.beq_refl v, JVal.beqFields_refl r]

end

instance : DecidableEq JVal := fun a b =>
  decidable_of_iff (JVal.beq a b = true)
    ⟨JVal.eq_of_beq, fun h => h ▸ JVal.beq_refl a⟩

/-- A JSON object, as an ordered key/value list. -/
abbrev JObj := List (Line × JVal)

/-- Python `key in dict`. -/
def hasKey (m : JObj) (k : Line) : Bool := (List.lookup k m).isSome

mutual

/-- The recursive unicode-to-str normalization `convert` from the source.
With one text type in the model it rebuilds the value structurally. -/
def convert : JVal → JVal
  | .s v => .s v
  | .o fs => .o (convertFields fs)

/-- `convert` applied to the items of a mapping. -/
def convertFields : List (Line × JVal) → List (Line × JVal)
  | [] => []
  | (k, v) :: rest => (k, convert v) :: convertFields rest

end

/-- A `Station` object: its `station_id` and the `metadata` dict written by
`get_station`. -/
structure Station where
  station_id : Line
  metadata : JObj
deriving DecidableEq

/-- Key `'error'` checked by `get_station` and `create_shapefile`. -/
def errorKey : Line := "error".data

/-- Key `'metadata'` extracted by `get_station`. -/
def metadataKey : Line := "metadata".data

/-- The DataGetter query URL built by `Station.get_station`. -/
def tac_query (sid : Line) : Line :=
  "http://tidesandcurrents.noaa.gov/api/datagetter?station=".data ++ sid ++
  ("&date=latest&product=water_level&units=metric&time_zone=GMT" ++
   "&format=json&datum=stnd&application=ED_pyQCReps").data

/-- `Station.get_station` after the network boundary: given the decoded
JSON response, store `convert(data['metadata'])` when no top-level
`'error'` key is present, and `convert(data)` (the error payload itself)
when one is.  A response with neither key, or a non-object `'metadata'`
value, makes the lookup raise, modelled by `none`. -/
def get_station (sid : Line) (resp : JObj) : Option Station :=
  if hasKey resp errorKey then some ⟨sid, convertFields resp⟩
  else
    match List.lookup metadataKey resp with
    | some (.o m) => some ⟨sid, convertFields m⟩
    | _ => none

/-- One parsed row as `create_shapefile` and `list_stations` index it:
`self.data[i]` from either supported report layout. -/
inductive ParsedRow
  | invRow (r : InvalidRecord)
  | qcRow (r : QcRecord)
deriving DecidableEq

/-- Field 0 of a row: the station ID. -/
def rowStation : ParsedRow → Line
  | .invRow r => r.station
  | .qcRow r => r.station

/-- Field 1 of a row: the DCP. -/
def rowDCP : ParsedRow → Line
  | .invRow r => r.dcp
  | .qcRow r => r.dcp

/-- Field 2 of a row: the sensor ID. -/
def rowSensor : ParsedRow → Line
  | .invRow r => r.sensor
  | .qcRow r => r.sensor

/-- Field 3 of a row: `Received` or `Data_Received`. -/
def rowField3 : ParsedRow → Int
  | .invRow r => r.received
  | .qcRow r => r.data_received

/-- Worker for `list_stations`: walk the parsed rows in order, issue one
DataGetter fetch per row (first component: the station IDs fetched, in
order), and build one `Station` object per row.  `env` gives the decoded
response for a station ID; a failing construction aborts the loop with the
fetches made so far. -/
def lsRun (env : Line → JObj) : List ParsedRow → List Line × Option (List Station)
  | [] => ([], some [])
  | r :: rs =>
    let sid := rowStation r
    match get_station sid (env sid) with
    | none => ([sid], none)
    | some st =>
      let rest := lsRun env rs
      (sid :: rest.1, rest.2.map (fun l => st :: l))

/-- `Report.list_stations`: append one `Station` per parsed record to
`self.stnlist` (which may already hold entries), in record order, with no
deduplication. -/
def list_stations (env : Line → JObj) (data : List ParsedRow)
    (stnlist : List Station) : List Line × Option (List Station) :=
  let r := lsRun env data
  (r.1, r.2.map (fun l => stnlist ++ l))

/-- One feature committed to the output layer. -/
structure Feature where
  fid : Nat
  lon : Dec
  lat : Dec
  stn_id : Line
  stn_name : Line
  dcp : Line
  sensor : Line
  numFields : List Int
deriving DecidableEq

/-- Python `int(...)` applied to a parsed float: truncation toward zero. -/
def pyInt (d : Dec) : Int := Int.tdiv d.num (10 ^ d.exp)

/-- Look up a key whose value must be a plain string. -/
def lookupStr (m : JObj) (k : Line) : Option Line :=
  match List.lookup k m with
  | some (.s v) => some v
  | _ => none

/-- Key `'lon'` of a metadata mapping. -/
def lonKey : Line := "lon".data

/-- Key `'lat'` of a metadata mapping. -/
def latKey : Line := "lat".data

/-- Key `'id'` of a metadata mapping. -/
def idKey : Line := "id".data

/-- Key `'name'` of a metadata mapping. -/
def nameKey : Line := "name".data

/-- The numeric attribute fields set for a qc-check feature:
`Dat_Recd, Pct_Recd (int-truncated), Flat, RofC, Temp, Height, Excd_Lim,
Prim/Bkp, Prim/Pre`. -/
def qcNumFields (r : QcRecord) : List Int :=
  [r.data_received, pyInt r.percent_data, r.flat, r.rofc, r.temp, r.height,
   r.exceed_limits, r.prim_backup, r.prim_predict]

/-- Body of the per-station loop of `create_shapefile` for a non-errored
station, in source order: build the point geometry from
`float(metadata['lon'])` and `float(metadata['lat'])`, set `Stn_ID` and
`Stn_Name` from the metadata, set `DCP` and `Sensor_ID` from the record,
then switch on `r_type` for the numeric fields — where the unsupported
types fall through to `raise NameError('Report type not supported!')`.
A `qc_check` report whose row has only the four invalid-report fields
stops with an index error, as `self.data[i][4]` would. -/
def featureOf (rt : RType) (row : ParsedRow) (st : Station) (i : Nat) :
    Except String Feature :=
  match lookupStr st.metadata lonKey, lookupStr st.metadata latKey with
  | some lonS, some latS =>
    match parseFloat lonS, parseFloat latS with
    | some lonV, some latV =>
      match lookupStr st.metadata idKey, lookupStr st.metadata nameKey with
      | some sid, some snm =>
        match rt, row with
        | .invalid, r =>
          .ok ⟨i, lonV, latV, sid, snm, rowDCP r, rowSensor r, [rowField3 r]⟩
        | .qc_check, .qcRow r =>
          .ok ⟨i, lonV, latV, sid, snm, r.dcp, r.sensor, qcNumFields r⟩
        | .qc_check, .invRow _ => .error "IndexError"
        | .qc_flat, _ => .error "Report type not supported!"
        | .data_source, _ => .error "Report type not supported!"
      | _, _ => .error "KeyError"
    | _, _ => .error "ValueError"
  | _, _ => .error "KeyError"

/-- Observable effects of `create_shapefile`: deleting a pre-existing data
source, creating the new one, skipping an errored station (printing a
diagnostic that names it), and committing a feature to the layer. -/
inductive Ev
  | deleteSource
  | createSource
  | skip (i : Nat) (sid : Line)
  | commit (i : Nat) (f : Feature)
deriving DecidableEq

/-- The per-station loop of `create_shapefile` over the indexed station
list: an errored station (metadata containing `'error'`) is skipped with a
diagnostic naming it; otherwise the feature is built and committed.  Any
raise stops the loop, keeping the events already performed. -/
def shpRun (rt : RType) (data : List ParsedRow) :
    List (Nat × Station) → List Ev × Option String
  | [] => ([], none)
  | (i, st) :: rest =>
    if hasKey st.metadata errorKey then
      let r := shpRun rt data rest
      (.skip i st.station_id :: r.1, r.2)
    else
      match data[i]? with
      | none => ([], some "IndexError")
      | some row =>
        match featureOf rt row st i with
        | .error m => ([], some m)
        | .ok f =>
          let r := shpRun rt data rest
          (.commit i f :: r.1, r.2)

/-- `Report.create_shapefile`: delete any existing `<r_type>.shp`, create
the data source, the WGS84 layer and its fields, then run the per-station
loop.  The result is the trace of observable events (in program order) and
the error the call raised, if any. -/
def create_shapefile (rt : RType) (priorExists : Bool) (data : List ParsedRow)
    (stnlist : List Station) : List Ev × Option String :=
  let pre : List Ev := (if priorExists then [Ev.deleteSource] else []) ++ [Ev.createSource]
  let r := shpRun rt data stnlist.enum
  (pre ++ r.1, r.2)

/-- Number of features committed to the layer in a trace. -/
def commitCount (evs : List Ev) : Nat :=
  evs.countP (fun e => match e with | .commit _ _ => true | _ => false)

/-- Invalid-error parser as the claim describes it: identical `genfromtxt`
pipeline (7 header lines, 2 footer rows, autostrip, same dtype), but with
the data lines split at a fixed column-width table `ws` instead of on
whitespace.  Written from the claim's words, for comparison with
`parse_invalid`. -/
def parse_invalid_fixed (ws : List Nat) (lines : List Line) :
    Option (List InvalidRecord) :=
  convRows invalidConv (gfRows (widthSplit ws) 7 2 lines)

/-- The stripped field of a line starting at character column `off` and
spanning `w` columns. -/
def qcFieldAt (l : Line) (off w : Nat) : Line := trimL ((l.drop off).take w)

/-- A metadata mapping with everything the feature-building code reads:
string values under `'lon'`, `'lat'` that `float(...)` accepts, and values
under `'id'` and `'name'`. -/
def goodMetaB (m : JObj) : Bool :=
  ((lookupStr m lonKey).bind parseFloat).isSome &&
  ((lookupStr m latKey).bind parseFloat).isSome &&
  (lookupStr m idKey).isSome && (lookupStr m nameKey).isSome

/-- Header lines of the width-table comparison fixture (invalid report). -/
def hdr7W : List Line :=
  ["h1".data, "h2".data, "h3".data, "h4".data, "h5".data, "h6".data,
   "h7".data]

/-- Footer lines of the width-table comparison fixture. -/
def ftr2W : List Line := ["f1".data, "f2".data]

/-- Data line whose station token is one character wide. -/
def cLine1 : Line := "s 0 A1 5".data

/-- Data line with the same tokens at different character columns. -/
def cLine2 : Line := "station 0 A1 5".data

/-- Invalid-report body around `cLine1`. -/
def cb1 : List Line := hdr7W ++ [cLine1] ++ ftr2W

/-- Invalid-report body around `cLine2`. -/
def cb2 : List Line := hdr7W ++ [cLine2] ++ ftr2W

/-- A station whose metadata carries everything the exporter reads. -/
def stnGoodW : Station :=
  ⟨"9414290".data,
   [(idKey, JVal.s ("9414290".data)),
    (nameKey, JVal.s ("San Francisco".data)),
    (latKey, JVal.s ("37.806331".data)),
    (lonKey, JVal.s ("-122.465919".data))]⟩

/-- A DataGetter response with a top-level error payload. -/
def respErrW : JObj :=
  [(errorKey, JVal.o [("message".data, JVal.s ("No data was found".data))])]

/-- A station left error-flagged by `get_station`. -/
def stnErrW : Station := ⟨"9999999".data, respErrW⟩

/-- One parsed invalid-error record used as `self.data[i]`. -/
def rowInvW : ParsedRow :=
  .invRow ⟨"9414290".data, "1".data, "A1".data, 5⟩

/-- A DataGetter response with a well-formed `metadata` object. -/
def respMetaW : JObj :=
  [(metadataKey,
    JVal.o [(idKey, JVal.s ("9414290".data)),
            (nameKey, JVal.s ("San Francisco".data)),
            (latKey, JVal.s ("37.806331".data)),
            (lonKey, JVal.s ("-122.465919".data))])]

/-- An environment answering every station query with `respMetaW`. -/
def envW : Line → JObj := fun _ => respMetaW

/-! ## Theorems -/

/-! ### Helper lemmas about the line utilities -/

theorem dropWhile_eq_self_of_none (p : Char → Bool) :
    ∀ l : Line, (∀ c ∈ l, p c = false) → l.dropWhile p = l
  | [], _ => rfl
  | c :: l, h => by
    have hc : p c = false := h c (by simp)
    simp [List.dropWhile_cons, hc]

theorem trimL_eq_self {l : Line} (h : ∀ c ∈ l, isSpaceC c = false) :
    trimL l = l := by
  unfold trimL
  rw [dropWhile_eq_self_of_none _ l h,
    dropWhile_eq_self_of_none _ l.reverse
      (fun c hc => h c (List.mem_reverse.mp hc)),
    List.reverse_reverse]

theorem takeWhile_eq_self_of_all (p : Char → Bool) :
    ∀ l : Line, (∀ c ∈ l, p c = true) →
      l.takeWhile p = l ∧ l.dropWhile p = []
  | [], _ => ⟨rfl, rfl⟩
  | c :: l, h => by
    have hc : p c = true := h c (by simp)
    have ih := takeWhile_eq_self_of_all p l (fun x hx => h x (by simp [hx]))
    simp [List.takeWhile_cons, List.dropWhile_cons, hc, ih.1, ih.2]

theorem wsTokensGo_tokens (l : Line) :
    ∀ acc : Line, (∀ c ∈ acc, isSpaceC c = false) →
      ∀ t ∈ wsTokensGo l acc, t ≠ [] ∧ ∀ c ∈ t, isSpaceC c = false := by
  induction l with
  | nil =>
    intro acc hacc t ht
    rw [wsTokensGo] at ht
    split at ht
    · simp at ht
    · next h =>
      simp only [List.mem_singleton] at ht
      subst ht
      refine ⟨by simpa using h, fun c hc => hacc c (List.mem_reverse.mp hc)⟩
  | cons c rest ih =>
    intro acc hacc t ht
    rw [wsTokensGo] at ht
    split at ht
    · split at ht
      · exact ih [] (by simp) t ht
      · next h =>
        rcases List.mem_cons.mp ht with h1 | h2
        · subst h1
          exact ⟨by simpa using h, fun c2 hc2 => hacc c2 (List.mem_reverse.mp hc2)⟩
        · exact ih [] (by simp) t h2
    · next hsp =>
      refine ih (c :: acc) ?_ t ht
      intro c2 hc2
      rcases List.mem_cons.mp hc2 with rfl | h2
      · simpa using hsp
      · exact hacc c2 h2

theorem wsTokens_tokens (l : Line) :
    ∀ t ∈ wsTokens l, t ≠ [] ∧ ∀ c ∈ t, isSpaceC c = false :=
  wsTokensGo_tokens l [] (by simp)

theorem splitWidths_length : ∀ (ws : List Nat) (l : Line),
    (splitWidths ws l).length = ws.length
  | [], _ => rfl
  | _ :: ws, l => by simp [splitWidths, splitWidths_length ws]

theorem widthSplit_ne_nil {ws : List Nat} {l : Line}
    (h : stripComment l ≠ []) (hws : ws ≠ []) : widthSplit ws l ≠ [] := by
  simp only [widthSplit, if_neg h]
  cases ws with
  | nil => exact absurd rfl hws
  | cons w ws' => simp [splitWidths]

theorem widthSplit_of_ne_nil {ws : List Nat} {l : Line}
    (h : stripComment l ≠ []) :
    widthSplit ws l = (splitWidths ws (stripComment l)).map trimL := by
  simp only [widthSplit, if_neg h]

/-! ### Helper lemmas about the genfromtxt pipeline -/

theorem gfRows_append (split : Line → List Line) (h f : Nat)
    (hdr dataL ftr : List Line)
    (hh : hdr.length = h) (hf : ftr.length = f)
    (hd : ∀ l ∈ dataL, split l ≠ [])
    (hft : ∀ l ∈ ftr, split l ≠ []) :
    gfRows split h f (hdr ++ dataL ++ ftr) = dataL.map split := by
  unfold gfRows
  have h1 : (hdr ++ dataL ++ ftr).drop h = dataL ++ ftr := by
    rw [List.append_assoc, ← hh, List.drop_left]
  rw [h1, List.map_append, List.filter_append]
  have h2 : (dataL.map split).filter (fun r => !r.isEmpty) = dataL.map split :=
    List.filter_eq_self.mpr (by
      intro r hr
      rcases List.mem_map.mp hr with ⟨l, hl, rfl⟩
      simpa [List.isEmpty_iff] using hd l hl)
  have h3 : (ftr.map split).filter (fun r => !r.isEmpty) = ftr.map split :=
    List.filter_eq_self.mpr (by
      intro r hr
      rcases List.mem_map.mp hr with ⟨l, hl, rfl⟩
      simpa [List.isEmpty_iff] using hft l hl)
  rw [h2, h3]
  have h4 : (dataL.map split ++ ftr.map split).length - f =
      (dataL.map split).length := by
    simp [hf]
  show (dataL.map split ++ ftr.map split).take
      ((dataL.map split ++ ftr.map split).length - f) = dataL.map split
  rw [h4, List.take_left]

theorem convRows_eq_some_iff {α : Type} (conv : List Line → Option α) :
    ∀ (rows : List (List Line)) (recs : List α),
      convRows conv rows = some recs ↔ rows.map conv = recs.map some := by
  intro rows
  induction rows with
  | nil => intro recs; cases recs <;> simp [convRows]
  | cons r rs ih =>
    intro recs
    cases hcr : conv r with
    | none => cases recs <;> simp [convRows, hcr]
    | some a =>
      cases hrs : convRows conv rs with
      | none => cases recs <;> simp [convRows, hcr, hrs, ← ih]
      | some tl => cases recs <;> simp [convRows, hcr, hrs, ← ih]

theorem convRows_length {α : Type} {conv : List Line → Option α}
    {rows : List (List Line)} {recs : List α}
    (h : convRows conv rows = some recs) : recs.length = rows.length := by
  have h2 := congrArg List.length ((convRows_eq_some_iff conv rows recs).mp h)
  simpa using h2.symm

theorem convRows_getElem {α : Type} {conv : List Line → Option α}
    {rows : List (List Line)} {recs : List α}
    (h : convRows conv rows = some recs) (i : Nat) :
    (rows[i]?).map conv = (recs[i]?).map some := by
  have h2 := congrArg (fun l => l[i]?)
    ((convRows_eq_some_iff conv rows recs).mp h)
  simpa [List.getElem?_map] using h2

theorem convRows_isSome {α : Type} (conv : List Line → Option α)
    (rows : List (List Line))
    (h : ∀ r ∈ rows, (conv r).isSome = true) :
    ∃ recs, convRows conv rows = some recs := by
  induction rows with
  | nil => exact ⟨[], rfl⟩
  | cons r rs ih =>
    rcases Option.isSome_iff_exists.mp (h r (by simp)) with ⟨a, ha⟩
    rcases ih (fun x hx => h x (by simp [hx])) with ⟨tl, htl⟩
    exact ⟨a :: tl, by simp [convRows, ha, htl]⟩

theorem mem_of_getElem?_some {α : Type} {l : List α} {i : Nat} {a : α}
    (h : l[i]? = some a) : a ∈ l := by
  rcases List.getElem?_eq_some_iff.mp h with ⟨hlt, rfl⟩
  exact List.getElem_mem hlt

theorem invalidConv_shape {fields : List Line} {rec : InvalidRecord}
    (h : invalidConv fields = some rec) :
    ∃ s d se r n, fields = [s, d, se, r] ∧ parseInt r = some n
      ∧ rec = ⟨s.take 7, d.take 1, se.take 2, n⟩ := by
  rcases fields with _ | ⟨s, _ | ⟨d, _ | ⟨se, _ | ⟨r, _ | ⟨x, rest⟩⟩⟩⟩⟩
  · simp [invalidConv] at h
  · simp [invalidConv] at h
  · simp [invalidConv] at h
  · simp [invalidConv] at h
  · simp only [invalidConv, Option.map_eq_some'] at h
    rcases h with ⟨n, hn, hrec⟩
    exact ⟨s, d, se, r, n, rfl, hn, hrec.symm⟩
  · simp [invalidConv] at h

theorem qcConv_shape {fields : List Line} {rec : QcRecord}
    (h : qcConv fields = some rec) :
    ∃ s d se rest, fields = s :: d :: se :: rest ∧ rest.length = 9
      ∧ rec.station = s.take 7 ∧ rec.dcp = d.take 1
      ∧ rec.sensor = se.take 2 := by
  rcases fields with _ | ⟨s, _ | ⟨d, _ | ⟨se, _ | ⟨g3, _ | ⟨g4, _ | ⟨g5, _ |
    ⟨g6, _ | ⟨g7, _ | ⟨g8, _ | ⟨g9, _ | ⟨g10, _ | ⟨g11, _ | ⟨x, rest⟩⟩⟩⟩⟩⟩⟩⟩⟩⟩⟩⟩⟩
  · simp [qcConv] at h
  · simp [qcConv] at h
  · simp [qcConv] at h
  · simp [qcConv] at h
  · simp [qcConv] at h
  · simp [qcConv] at h
  · simp [qcConv] at h
  · simp [qcConv] at h
  · simp [qcConv] at h
  · simp [qcConv] at h
  · simp [qcConv] at h
  · simp [qcConv] at h
  · simp only [qcConv] at h
    split at h
    · injection h with h2
      subst h2
      exact ⟨s, d, se, _, rfl, rfl, rfl, rfl, rfl⟩
    · exact absurd h (by simp)
  · simp [qcConv] at h

theorem parse_invalid_append (hdr dataL ftr : List Line)
    (hh : hdr.length = 7) (hf : ftr.length = 2)
    (hd : ∀ l ∈ dataL, delimSplit l ≠ [])
    (hft : ∀ l ∈ ftr, delimSplit l ≠ []) :
    parse_invalid (hdr ++ dataL ++ ftr) =
      convRows invalidConv (dataL.map delimSplit) := by
  unfold parse_invalid
  rw [gfRows_append delimSplit 7 2 hdr dataL ftr hh hf hd hft]

theorem parse_qc_check_append (hdr dataL ftr : List Line)
    (hh : hdr.length = 13) (hf : ftr.length = 28)
    (hd : ∀ l ∈ dataL, stripComment l ≠ [])
    (hft : ∀ l ∈ ftr, stripComment l ≠ []) :
    parse_qc_check (hdr ++ dataL ++ ftr) =
      convRows qcConv (dataL.map (widthSplit qcWidths)) := by
  unfold parse_qc_check
  rw [gfRows_append (widthSplit qcWidths) 13 28 hdr dataL ftr hh hf
    (fun l hl => widthSplit_ne_nil (hd l hl) (by simp [qcWidths]))
    (fun l hl => widthSplit_ne_nil (hft l hl) (by simp [qcWidths]))]

/-- C2: parsing an invalid-error report body with 7 header lines, N data
lines and 2 footer lines yields exactly N records in line order; each
record's fields are whitespace-free tokens (so surrounding whitespace is
trimmed), the station ID keeps at most 7 characters, the DCP exactly 1,
the sensor ID at most 2, and the invalid-count is an integer by type. -/
theorem parse_invalid_records (hdr dataL ftr : List Line)
    (hh : hdr.length = 7) (hf : ftr.length = 2)
    (hft : ∀ l ∈ ftr, delimSplit l ≠ [])
    (hd : ∀ l ∈ dataL, (invalidConv (delimSplit l)).isSome = true) :
    ∃ recs, parse_invalid (hdr ++ dataL ++ ftr) = some recs
      ∧ recs.length = dataL.length
      ∧ (∀ i : Nat, (recs[i]?).map some =
          (dataL[i]?).map (fun l => invalidConv (delimSplit l)))
      ∧ ∀ rec ∈ recs, rec.station.length ≤ 7 ∧ rec.dcp.length = 1
          ∧ rec.sensor.length ≤ 2
          ∧ trimL rec.station = rec.station ∧ trimL rec.dcp = rec.dcp
          ∧ trimL rec.sensor = rec.sensor := by
  have hd' : ∀ l ∈ dataL, delimSplit l ≠ [] := by
    intro l hl
    rcases Option.isSome_iff_exists.mp (hd l hl) with ⟨rec, hrec⟩
    rcases invalidConv_shape hrec with ⟨s, d, se, r, n, hfld, -, -⟩
    rw [hfld]
    simp
  rw [parse_invalid_append hdr dataL ftr hh hf hd' hft]
  obtain ⟨recs, hrecs⟩ := convRows_isSome invalidConv (dataL.map delimSplit) (by
    intro r hr
    rcases List.mem_map.mp hr with ⟨l, hl, rfl⟩
    exact hd l hl)
  refine ⟨recs, hrecs, ?_, ?_, ?_⟩
  · rw [convRows_length hrecs, List.length_map]
  · intro i
    have h2 := convRows_getElem hrecs i
    rw [List.getElem?_map, Option.map_map] at h2
    exact h2.symm
  · intro rec hrec
    have hmem : some rec ∈ recs.map some := List.mem_map_of_mem some hrec
    rw [← (convRows_eq_some_iff invalidConv _ recs).mp hrecs] at hmem
    rcases List.mem_map.mp hmem with ⟨fields, hfieldsmem, hconv⟩
    rcases List.mem_map.mp hfieldsmem with ⟨l, hl, rfl⟩
    rcases invalidConv_shape hconv with ⟨s, d, se, r, n, hfld, -, hrec2⟩
    subst hrec2
    have hs : s ∈ wsTokens (stripComment l) := by
      have : s ∈ delimSplit l := by rw [hfld]; simp
      exact this
    have hdm : d ∈ wsTokens (stripComment l) := by
      have : d ∈ delimSplit l := by rw [hfld]; simp
      exact this
    have hsem : se ∈ wsTokens (stripComment l) := by
      have : se ∈ delimSplit l := by rw [hfld]; simp
      exact this
    have hts := wsTokens_tokens (stripComment l) s hs
    have htd := wsTokens_tokens (stripComment l) d hdm
    have htse := wsTokens_tokens (stripComment l) se hsem
    have hd1 : 1 ≤ d.length := by
      cases d with
      | nil => exact absurd rfl htd.1
      | cons _ _ => simp
    refine ⟨?_, ?_, ?_, ?_, ?_, ?_⟩
    · simp only [List.length_take]
      omega
    · simp only [List.length_take]
      omega
    · simp only [List.length_take]
      omega
    · exact trimL_eq_self (fun c hc => hts.2 c (List.take_subset 7 s hc))
    · exact trimL_eq_self (fun c hc => htd.2 c (List.take_subset 1 d hc))
    · exact trimL_eq_self (fun c hc => htse.2 c (List.take_subset 2 se hc))

/-- C2 witness: a 7-header, 2-data-line, 2-footer body yields exactly 2
records with the stated field shapes. -/
theorem parse_invalid_records_witness :
    ∃ recs, parse_invalid
        (["h1".data, "h2".data, "h3".data, "h4".data, "h5".data, "h6".data,
          "h7".data] ++
         ["9414290 1 A1 5".data, "9410840  0 B1  12".data] ++
         ["f1".data, "f2".data]) = some recs
      ∧ recs.length = 2
      ∧ (∀ i : Nat, (recs[i]?).map some =
          (["9414290 1 A1 5".data, "9410840  0 B1  12".data][i]?).map
            (fun l => invalidConv (delimSplit l)))
      ∧ ∀ rec ∈ recs, rec.station.length ≤ 7 ∧ rec.dcp.length = 1
          ∧ rec.sensor.length ≤ 2
          ∧ trimL rec.station = rec.station ∧ trimL rec.dcp = rec.dcp
          ∧ trimL rec.sensor = rec.sensor :=
  parse_invalid_records
    ["h1".data, "h2".data, "h3".data, "h4".data, "h5".data, "h6".data,
     "h7".data]
    ["9414290 1 A1 5".data, "9410840  0 B1  12".data]
    ["f1".data, "f2".data]
    (by decide) (by decide) (by decide) (by decide)

/-- C1: parsing a qc-check report body skips exactly the 13 header lines
and the 28 trailing footer rows, splits every data line at the fixed
widths [8,2,3,9,7,6,6,7,7,7,8,8] and coerces each row with the qc-check
schema (`qcConv`): any record produced keeps at most 7 station characters,
at most 1 DCP character and at most 2 sensor characters, the count fields
are integers and the percent field a float by type, and `float(...)`
accepts a digits-only percent field with no decimal point. -/
theorem parse_qc_check_schema (hdr dataL ftr : List Line)
    (hh : hdr.length = 13) (hf : ftr.length = 28)
    (hd : ∀ l ∈ dataL, stripComment l ≠ [])
    (hft : ∀ l ∈ ftr, stripComment l ≠ []) :
    parse_qc_check (hdr ++ dataL ++ ftr) =
      convRows qcConv (dataL.map (widthSplit qcWidths))
    ∧ (∀ (fields : List Line) (rec : QcRecord), qcConv fields = some rec →
        rec.station.length ≤ 7 ∧ rec.dcp.length ≤ 1 ∧ rec.sensor.length ≤ 2)
    ∧ (∀ ds : Line, ds ≠ [] → ds.all Char.isDigit = true →
        parseFloat ds = some ⟨(digitsVal ds : Int), 0⟩) := by
  refine ⟨parse_qc_check_append hdr dataL ftr hh hf hd hft, ?_, ?_⟩
  · intro fields rec h
    rcases qcConv_shape h with ⟨s, d, se, rest, -, -, hst, hdc, hse⟩
    rw [hst, hdc, hse]
    refine ⟨?_, ?_, ?_⟩ <;> (simp only [List.length_take]; omega)
  · intro ds hne hdig
    have hnodot : ∀ c ∈ ds, decide (c ≠ '.') = true := by
      intro c hc
      have hcd : c.isDigit = true := by
        simpa using List.all_eq_true.mp hdig c hc
      simp only [decide_eq_true_eq]
      intro hcc
      subst hcc
      exact absurd hcd (by decide)
    have htw := takeWhile_eq_self_of_all (fun c => decide (c ≠ '.')) ds hnodot
    cases ds with
    | nil => exact absurd rfl hne
    | cons c r =>
      have hcd : c.isDigit = true := by
        simpa using List.all_eq_true.mp hdig c (by simp)
      have hplus : ¬c = '+' := fun hcc => by
        subst hcc; exact absurd hcd (by decide)
      have hminus : ¬c = '-' := fun hcc => by
        subst hcc; exact absurd hcd (by decide)
      simp only [parseFloat, if_neg hplus, if_neg hminus]
      simp only [parseFloatMag, htw.1, htw.2]
      simp [parseNat, hdig]

/-- C1 witness: a 13-header, 1-data-line, 28-footer qc-check body parses to
the expected record, and the percent field `99` (no decimal point) parses
as a float. -/
theorem parse_qc_check_schema_witness :
    parse_qc_check
        (["h1".data, "h2".data, "h3".data, "h4".data, "h5".data, "h6".data,
          "h7".data, "h8".data, "h9".data, "h10".data, "h11".data,
          "h12".data, "h13".data] ++
         ["9414290 1 A1      1234     99     0     1      2      3      4       5       6".data] ++
         List.replicate 28 ("f".data)) =
      some [⟨"9414290".data, "1".data, "A1".data, 1234, ⟨99, 0⟩,
            0, 1, 2, 3, 4, 5, 6⟩]
    ∧ parseFloat ("99".data) = some ⟨99, 0⟩ := by
  have h := parse_qc_check_schema
    ["h1".data, "h2".data, "h3".data, "h4".data, "h5".data, "h6".data,
     "h7".data, "h8".data, "h9".data, "h10".data, "h11".data, "h12".data,
     "h13".data]
    ["9414290 1 A1      1234     99     0     1      2      3      4       5       6".data]
    (List.replicate 28 ("f".data))
    (by decide) (by decide) (by decide) (by decide)
  refine ⟨h.1.trans (by decide), ?_⟩
  exact (h.2.2 ("99".data) (by decide) (by decide)).trans (by decide)

/-- C9: the parser applies no station filtering: a data line whose raw
station field begins with the sentinel `999` still yields a record, at its
own line position, whose station ID begins with `999` — for both supported
report types. -/
theorem parse_no_999_filtering :
    (∀ (hdr dataL ftr : List Line) (i : Nat) (l : Line),
      hdr.length = 7 → ftr.length = 2 →
      (∀ l2 ∈ ftr, delimSplit l2 ≠ []) →
      (∀ l2 ∈ dataL, (invalidConv (delimSplit l2)).isSome = true) →
      dataL[i]? = some l →
      ((delimSplit l).headI).take 3 = "999".data →
      ∃ recs rec, parse_invalid (hdr ++ dataL ++ ftr) = some recs
        ∧ recs[i]? = some rec ∧ rec.station.take 3 = "999".data)
    ∧ (∀ (hdr dataL ftr : List Line) (i : Nat) (l : Line),
      hdr.length = 13 → ftr.length = 28 →
      (∀ l2 ∈ ftr, stripComment l2 ≠ []) →
      (∀ l2 ∈ dataL, (qcConv (widthSplit qcWidths l2)).isSome = true) →
      dataL[i]? = some l →
      ((widthSplit qcWidths l).headI).take 3 = "999".data →
      ∃ recs rec, parse_qc_check (hdr ++ dataL ++ ftr) = some recs
        ∧ recs[i]? = some rec ∧ rec.station.take 3 = "999".data) := by
  constructor
  · intro hdr dataL ftr i l hh hf hft hd hil hst
    have hl : l ∈ dataL := mem_of_getElem?_some hil
    have hd' : ∀ l2 ∈ dataL, delimSplit l2 ≠ [] := by
      intro l2 hl2
      rcases Option.isSome_iff_exists.mp (hd l2 hl2) with ⟨rec, hrec⟩
      rcases invalidConv_shape hrec with ⟨s, d, se, r, n, hfld, -, -⟩
      rw [hfld]
      simp
    obtain ⟨recs, hrecs⟩ := convRows_isSome invalidConv (dataL.map delimSplit) (by
      intro r hr
      rcases List.mem_map.mp hr with ⟨l2, hl2, rfl⟩
      exact hd l2 hl2)
    rcases Option.isSome_iff_exists.mp (hd l hl) with ⟨rec, hrec⟩
    refine ⟨recs, rec, ?_, ?_, ?_⟩
    · rw [parse_invalid_append hdr dataL ftr hh hf hd' hft]
      exact hrecs
    · have h2 := convRows_getElem hrecs i
      rw [List.getElem?_map, hil] at h2
      simp only [Option.map_some'] at h2
      rw [hrec] at h2
      cases hri : recs[i]? with
      | none => rw [hri] at h2; simp at h2
      | some rec2 =>
        rw [hri] at h2
        simp only [Option.map_some', Option.some.injEq] at h2
        rw [h2]
    · rcases invalidConv_shape hrec with ⟨s, d, se, r, n, hfld, -, hrec2⟩
      subst hrec2
      have hhead : (delimSplit l).headI = s := by rw [hfld]; rfl
      rw [hhead] at hst
      show (s.take 7).take 3 = _
      rw [List.take_take, show min 3 7 = 3 from by decide]
      exact hst
  · intro hdr dataL ftr i l hh hf hft hd hil hst
    have hl : l ∈ dataL := mem_of_getElem?_some hil
    have hd2 : ∀ l2 ∈ dataL, stripComment l2 ≠ [] := by
      intro l2 hl2 hc
      rcases Option.isSome_iff_exists.mp (hd l2 hl2) with ⟨rec2, hrec2⟩
      rw [show widthSplit qcWidths l2 = [] from by simp [widthSplit, hc]]
        at hrec2
      simp [qcConv] at hrec2
    obtain ⟨recs, hrecs⟩ := convRows_isSome qcConv
      (dataL.map (widthSplit qcWidths)) (by
        intro r hr
        rcases List.mem_map.mp hr with ⟨l2, hl2, rfl⟩
        exact hd l2 hl2)
    rcases Option.isSome_iff_exists.mp (hd l hl) with ⟨rec, hrec⟩
    refine ⟨recs, rec, ?_, ?_, ?_⟩
    · rw [parse_qc_check_append hdr dataL ftr hh hf hd2 hft]
      exact hrecs
    · have h2 := convRows_getElem hrecs i
      rw [List.getElem?_map, hil] at h2
      simp only [Option.map_some'] at h2
      rw [hrec] at h2
      cases hri : recs[i]? with
      | none => rw [hri] at h2; simp at h2
      | some rec2 =>
        rw [hri] at h2
        simp only [Option.map_some', Option.some.injEq] at h2
        rw [h2]
    · rcases qcConv_shape hrec with ⟨s, d, se, rest, hfld, -, hstation, -, -⟩
      have hhead : (widthSplit qcWidths l).headI = s := by rw [hfld]; rfl
      rw [hhead] at hst
      rw [hstation, List.take_take, show min 3 7 = 3 from by decide]
      exact hst

/-- C9 witness: a `999`-prefixed station passes through both parsers. -/
theorem parse_no_999_filtering_witness :
    (∃ recs rec,
      parse_invalid
        (["h1".data, "h2".data, "h3".data, "h4".data, "h5".data, "h6".data,
          "h7".data] ++
         ["9990001 0 A1 5".data] ++ ["f1".data, "f2".data]) = some recs
      ∧ recs[0]? = some rec ∧ rec.station.take 3 = "999".data)
    ∧ (∃ recs rec,
      parse_qc_check
        (["h1".data, "h2".data, "h3".data, "h4".data, "h5".data, "h6".data,
          "h7".data, "h8".data, "h9".data, "h10".data, "h11".data,
          "h12".data, "h13".data] ++
         ["9990001 1 A1      1234     99     0     1      2      3      4       5       6".data] ++
         List.replicate 28 ("f".data)) = some recs
      ∧ recs[0]? = some rec ∧ rec.station.take 3 = "999".data) :=
  ⟨parse_no_999_filtering.1
      ["h1".data, "h2".data, "h3".data, "h4".data, "h5".data, "h6".data,
       "h7".data]
      ["9990001 0 A1 5".data] ["f1".data, "f2".data] 0
      ("9990001 0 A1 5".data)
      (by decide) (by decide) (by decide) (by decide) (by decide) (by decide),
   parse_no_999_filtering.2
      ["h1".data, "h2".data, "h3".data, "h4".data, "h5".data, "h6".data,
       "h7".data, "h8".data, "h9".data, "h10".data, "h11".data, "h12".data,
       "h13".data]
      ["9990001 1 A1      1234     99     0     1      2      3      4       5       6".data]
      (List.replicate 28 ("f".data)) 0
      ("9990001 1 A1      1234     99     0     1      2      3      4       5       6".data)
      (by decide) (by decide) (by decide) (by decide) (by decide) (by decide)⟩

theorem parse_invalid_fixed_singleton (ws : List Nat) (hws : ws ≠ [])
    (hdr ftr : List Line) (l : Line)
    (hh : hdr.length = 7) (hf : ftr.length = 2)
    (hl : stripComment l ≠ [])
    (hft : ∀ l2 ∈ ftr, stripComment l2 ≠ []) :
    parse_invalid_fixed ws (hdr ++ [l] ++ ftr) =
      (invalidConv ((splitWidths ws (stripComment l)).map trimL)).map
        (fun r => [r]) := by
  unfold parse_invalid_fixed
  rw [gfRows_append (widthSplit ws) 7 2 hdr [l] ftr hh hf
    (by
      intro l2 hl2
      rw [List.mem_singleton] at hl2
      subst hl2
      exact widthSplit_ne_nil hl hws)
    (fun l2 hl2 => widthSplit_ne_nil (hft l2 hl2) hws)]
  rw [List.map_singleton, widthSplit_of_ne_nil hl]
  cases h : invalidConv ((splitWidths ws (stripComment l)).map trimL) <;>
    simp [convRows, h]

/-- C3 counterexample: the claim asserts that the invalid-error report is
also split at a report-type-specific fixed column-width table; but no
width table reproduces `parse_invalid` on both `cb1` and `cb2`, whose data
lines carry the same whitespace-separated tokens at different character
columns, so the invalid-error branch is not positional. -/
theorem parse_invalid_not_fixed_width :
    ¬ ∃ ws : List Nat,
      parse_invalid_fixed ws cb1 = parse_invalid cb1
      ∧ parse_invalid_fixed ws cb2 = parse_invalid cb2 := by
  rintro ⟨ws, h1, h2⟩
  rw [show parse_invalid cb1 = some [⟨"s".data, "0".data, "A1".data, 5⟩]
      from by decide] at h1
  rw [show parse_invalid cb2 =
      some [⟨"station".data, "0".data, "A1".data, 5⟩] from by decide] at h2
  cases ws with
  | nil =>
    rw [show parse_invalid_fixed [] cb1 = some [] from by decide] at h1
    exact absurd h1 (by decide)
  | cons w1 wrest =>
    rw [show cb1 = hdr7W ++ [cLine1] ++ ftr2W from rfl,
      parse_invalid_fixed_singleton (w1 :: wrest) (by simp) hdr7W ftr2W
        cLine1 (by decide) (by decide) (by decide) (by decide)] at h1
    rw [show cb2 = hdr7W ++ [cLine2] ++ ftr2W from rfl,
      parse_invalid_fixed_singleton (w1 :: wrest) (by simp) hdr7W ftr2W
        cLine2 (by decide) (by decide) (by decide) (by decide)] at h2
    rw [show stripComment cLine1 = cLine1 from by decide] at h1
    rw [show stripComment cLine2 = cLine2 from by decide] at h2
    rcases Option.map_eq_some'.mp h1 with ⟨r1, hr1, hr1e⟩
    rcases Option.map_eq_some'.mp h2 with ⟨r2, hr2, hr2e⟩
    have hr1v : r1 = ⟨"s".data, "0".data, "A1".data, 5⟩ := by
      simpa using hr1e
    have hr2v : r2 = ⟨"station".data, "0".data, "A1".data, 5⟩ := by
      simpa using hr2e
    subst hr1v
    subst hr2v
    rcases invalidConv_shape hr1 with ⟨s1, d1, se1, rr1, n1, hfld1, -, hrec1⟩
    rcases invalidConv_shape hr2 with ⟨s2, d2, se2, rr2, n2, hfld2, -, hrec2⟩
    have hhead1 : s1 = trimL (cLine1.take w1) := by
      rw [show (splitWidths (w1 :: wrest) cLine1).map trimL =
          trimL (cLine1.take w1) ::
            (splitWidths wrest (cLine1.drop w1)).map trimL
        from by simp [splitWidths]] at hfld1
      exact (List.cons_eq_cons.mp hfld1).1.symm
    have hhead2 : s2 = trimL (cLine2.take w1) := by
      rw [show (splitWidths (w1 :: wrest) cLine2).map trimL =
          trimL (cLine2.take w1) ::
            (splitWidths wrest (cLine2.drop w1)).map trimL
        from by simp [splitWidths]] at hfld2
      exact (List.cons_eq_cons.mp hfld2).1.symm
    have hst1 : (trimL (cLine1.take w1)).take 7 = "s".data := by
      have := congrArg InvalidRecord.station hrec1
      simp only at this
      rw [← hhead1, ← this]
    have hst2 : (trimL (cLine2.take w1)).take 7 = "station".data := by
      have := congrArg InvalidRecord.station hrec2
      simp only at this
      rw [← hhead2, ← this]
    have key : ∀ w : Nat, w < 15 →
        ¬((trimL (cLine2.take w)).take 7 = "station".data
          ∧ (trimL (cLine1.take w)).take 7 = "s".data) := by decide
    by_cases hw : w1 < 15
    · exact key w1 hw ⟨hst2, hst1⟩
    · push_neg at hw
      have e1 : cLine1.take w1 = cLine1 :=
        List.take_of_length_le
          (by rw [show cLine1.length = 8 from by decide]; omega)
      rw [e1] at hst1
      exact absurd hst1 (by decide)

theorem widthSplit_qc {l : Line} (hc : stripComment l = l) (hne : l ≠ []) :
    widthSplit qcWidths l =
      [qcFieldAt l 0 8, qcFieldAt l 8 2, qcFieldAt l 10 3, qcFieldAt l 13 9,
       qcFieldAt l 22 7, qcFieldAt l 29 6, qcFieldAt l 35 6, qcFieldAt l 41 7,
       qcFieldAt l 48 7, qcFieldAt l 55 7, qcFieldAt l 62 8,
       qcFieldAt l 70 8] := by
  rw [widthSplit_of_ne_nil (by rw [hc]; exact hne), hc]
  simp [qcWidths, splitWidths, qcFieldAt, List.drop_drop]

/-- C3 (amended): the fixed column-width table applies to the qc-check
report only: its data lines are cut positionally at character offsets
0,8,10,13,22,29,35,41,48,55,62,70 given by the width table
[8,2,3,9,7,6,6,7,7,7,8,8], each field then stripped; the invalid-error
report's data lines are instead split on runs of whitespace (numpy's
default delimiter when none is passed), not at fixed columns (see the
counterexample). -/
theorem parse_split_disciplines :
    (∀ hdr dataL ftr : List Line, hdr.length = 13 → ftr.length = 28 →
      (∀ l ∈ dataL, stripComment l = l ∧ l ≠ []) →
      (∀ l ∈ ftr, stripComment l ≠ []) →
      parse_qc_check (hdr ++ dataL ++ ftr) =
        convRows qcConv (dataL.map (fun l =>
          [qcFieldAt l 0 8, qcFieldAt l 8 2, qcFieldAt l 10 3,
           qcFieldAt l 13 9, qcFieldAt l 22 7, qcFieldAt l 29 6,
           qcFieldAt l 35 6, qcFieldAt l 41 7, qcFieldAt l 48 7,
           qcFieldAt l 55 7, qcFieldAt l 62 8, qcFieldAt l 70 8])))
    ∧ (∀ hdr dataL ftr : List Line, hdr.length = 7 → ftr.length = 2 →
      (∀ l ∈ dataL, stripComment l = l ∧ wsTokens l ≠ []) →
      (∀ l ∈ ftr, delimSplit l ≠ []) →
      parse_invalid (hdr ++ dataL ++ ftr) =
        convRows invalidConv (dataL.map wsTokens)) := by
  constructor
  · intro hdr dataL ftr hh hf hdat hft
    rw [parse_qc_check_append hdr dataL ftr hh hf
      (fun l hl => by rw [(hdat l hl).1]; exact (hdat l hl).2) hft]
    exact congrArg (convRows qcConv)
      (List.map_congr_left
        (fun l hl => widthSplit_qc (hdat l hl).1 (hdat l hl).2))
  · intro hdr dataL ftr hh hf hdat hft
    have hds : ∀ l ∈ dataL, delimSplit l = wsTokens l := by
      intro l hl
      show wsTokens (stripComment l) = wsTokens l
      rw [(hdat l hl).1]
    rw [parse_invalid_append hdr dataL ftr hh hf
      (fun l hl => by rw [hds l hl]; exact (hdat l hl).2) hft]
    exact congrArg (convRows invalidConv) (List.map_congr_left hds)

/-- C3 witness for the amended statement: the qc-check body parses by the
positional field extraction and the invalid body by whitespace tokens. -/
theorem parse_split_disciplines_witness :
    parse_qc_check
        (["h1".data, "h2".data, "h3".data, "h4".data, "h5".data, "h6".data,
          "h7".data, "h8".data, "h9".data, "h10".data, "h11".data,
          "h12".data, "h13".data] ++
         ["9455920 1 N1       100     42     7     8      9     10     11      12      13".data] ++
         List.replicate 28 ("f".data)) =
      some [⟨"9455920".data, "1".data, "N1".data, 100, ⟨42, 0⟩,
            7, 8, 9, 10, 11, 12, 13⟩]
    ∧ parse_invalid
        (["h1".data, "h2".data, "h3".data, "h4".data, "h5".data, "h6".data,
          "h7".data] ++
         ["9455920 1 N1 7".data] ++ ["f1".data, "f2".data]) =
      some [⟨"9455920".data, "1".data, "N1".data, 7⟩] := by
  have h1 := parse_split_disciplines.1
    ["h1".data, "h2".data, "h3".data, "h4".data, "h5".data, "h6".data,
     "h7".data, "h8".data, "h9".data, "h10".data, "h11".data, "h12".data,
     "h13".data]
    ["9455920 1 N1       100     42     7     8      9     10     11      12      13".data]
    (List.replicate 28 ("f".data))
    (by decide) (by decide) (by decide) (by decide)
  have h2 := parse_split_disciplines.2
    ["h1".data, "h2".data, "h3".data, "h4".data, "h5".data, "h6".data,
     "h7".data]
    ["9455920 1 N1 7".data] ["f1".data, "f2".data]
    (by decide) (by decide) (by decide) (by decide)
  exact ⟨h1.trans (by decide), h2.trans (by decide)⟩

/-- C6: for every day value outside the range [1,31], `get_report` raises
`NameError('Invalid day of month specified!')`.  The raise sits before the
`base_url` assignment and before any `get_url` call in the source, which
the model reflects by producing the error with no URL: the fetch takes the
URL `get_report` returns, and none is returned. -/
theorem get_report_invalid_day (rt : RType) (d : Int) (h : d < 1 ∨ 31 < d) :
    get_report ⟨rt, .int d⟩ = .error "Invalid day of month specified!" := by
  have hok : dayOk (DayVal.int d) = false := by
    simp only [dayOk, Bool.and_eq_false_iff, decide_eq_false_iff_not, not_lt,
      not_le]
    omega
  simp [get_report, hok]

/-- C6 witness: day 32 is rejected. -/
theorem get_report_invalid_day_witness :
    ((32 : Int) < 1 ∨ 31 < (32 : Int)) ∧
    get_report ⟨RType.invalid, .int 32⟩ =
      .error "Invalid day of month specified!" :=
  ⟨by decide, get_report_invalid_day RType.invalid 32 (by decide)⟩

/-- C7: for the report types `qc_flat` and `data_source`, whose parser
branches are commented out in the source, `parse_report` falls through to
`raise NameError('Report type not supported!')` on every input and yields
no record sequence. -/
theorem parse_report_unsupported (lines : List Line) :
    parse_report .qc_flat lines = .error "Report type not supported!"
    ∧ parse_report .data_source lines = .error "Report type not supported!" :=
  ⟨rfl, rfl⟩

/-- C10: `get_report` overwrites the integer `self.day` with a zero-padded
two-character string, and a second invocation on the same object then fails
the Python 2 chained comparison `0 < self.day <= 31` (an `int` orders below
a `str`, so `day <= 31` is False) and raises the invalid-day error:
`get_report` is not repeatable on the same `Report`. -/
theorem get_report_not_repeatable (rt : RType) (d : Int)
    (h1 : 1 ≤ d) (h2 : d ≤ 31) :
    get_report ⟨rt, .int d⟩ =
      .ok (⟨rt, .str (padDay d)⟩,
           base_url_head ++ padDay d ++ report_filename rt)
    ∧ (padDay d).length = 2
    ∧ get_report ⟨rt, .str (padDay d)⟩ =
        .error "Invalid day of month specified!" := by
  have hok : dayOk (DayVal.int d) = true := by
    simp only [dayOk, Bool.and_eq_true, decide_eq_true_eq]
    omega
  refine ⟨by simp [get_report, hok], ?_, by simp [get_report, dayOk]⟩
  interval_cases d <;> decide

/-- C10 witness: day 5 becomes the string `'05'` and the second call
raises. -/
theorem get_report_not_repeatable_witness :
    get_report ⟨RType.invalid, .int 5⟩ =
      .ok (⟨RType.invalid, .str ("05".data)⟩,
           base_url_head ++ "05".data ++ report_filename RType.invalid)
    ∧ get_report ⟨RType.invalid, .str ("05".data)⟩ =
        .error "Invalid day of month specified!" := by
  have h := get_report_not_repeatable RType.invalid 5 (by decide) (by decide)
  have hp : padDay 5 = "05".data := by decide
  rw [hp] at h
  exact ⟨h.1, h.2.2⟩

/-! ### Helper lemmas about stations and the exporter -/

mutual

theorem convert_id : ∀ v : JVal, convert v = v
  | .s v => rfl
  | .o fs => by rw [convert, convertFields_id fs]

theorem convertFields_id : ∀ fs : List (Line × JVal), convertFields fs = fs
  | [] => rfl
  | (k, v) :: rest => by
    rw [convertFields, convert_id v, convertFields_id rest]

end

theorem get_station_id {sid : Line} {resp : JObj} {st : Station}
    (h : get_station sid resp = some st) : st.station_id = sid := by
  unfold get_station at h
  split at h
  · injection h with h2
    rw [← h2]
  · split at h
    · injection h with h2
      rw [← h2]
    · exact Option.noConfusion h

theorem create_shapefile_parts (rt : RType) (p : Bool) (data : List ParsedRow)
    (stns : List Station) :
    (create_shapefile rt p data stns).1 =
      ((if p then [Ev.deleteSource] else []) ++ [Ev.createSource]) ++
        (shpRun rt data stns.enum).1
    ∧ (create_shapefile rt p data stns).2 = (shpRun rt data stns.enum).2 :=
  ⟨rfl, rfl⟩

theorem commitCount_append (a b : List Ev) :
    commitCount (a ++ b) = commitCount a + commitCount b := by
  simp [commitCount, List.countP_append]

theorem commitCount_pre (p : Bool) :
    commitCount ((if p then [Ev.deleteSource] else []) ++ [Ev.createSource])
      = 0 := by
  cases p <;> decide

theorem commitCount_skip_cons (i : Nat) (sid : Line) (t : List Ev) :
    commitCount (Ev.skip i sid :: t) = commitCount t := by
  simp [commitCount, List.countP_cons]

theorem commitCount_commit_cons (i : Nat) (f : Feature) (t : List Ev) :
    commitCount (Ev.commit i f :: t) = commitCount t + 1 := by
  simp [commitCount, List.countP_cons]

theorem enumFrom_filter_length (pr : Station → Bool) :
    ∀ (n : Nat) (l : List Station),
      ((List.enumFrom n l).filter (fun q => pr q.2)).length =
        (l.filter pr).length
  | _, [] => rfl
  | n, st :: rest => by
    by_cases h : pr st = true <;>
      simp [List.enumFrom, List.filter_cons, h,
        enumFrom_filter_length pr (n + 1) rest]

theorem shpRun_ok (rt : RType) (data : List ParsedRow) :
    ∀ ps : List (Nat × Station),
      (∀ q ∈ ps, hasKey q.2.metadata errorKey = false →
        ((data[q.1]?).bind
          (fun row => (featureOf rt row q.2 q.1).toOption)).isSome = true) →
      (shpRun rt data ps).2 = none
      ∧ commitCount (shpRun rt data ps).1 =
          (ps.filter (fun q => !(hasKey q.2.metadata errorKey))).length
      ∧ ∀ q ∈ ps, hasKey q.2.metadata errorKey = true →
          Ev.skip q.1 q.2.station_id ∈ (shpRun rt data ps).1 := by
  intro ps
  induction ps with
  | nil => intro _; exact ⟨rfl, rfl, by simp⟩
  | cons q rest ih =>
    intro hps
    obtain ⟨i, st⟩ := q
    rcases ih (fun q2 hq2 => hps q2 (List.mem_cons_of_mem _ hq2)) with
      ⟨ih1, ih2, ih3⟩
    by_cases herr : hasKey st.metadata errorKey = true
    · have htr : (shpRun rt data ((i, st) :: rest)).1 =
          Ev.skip i st.station_id :: (shpRun rt data rest).1 := by
        simp [shpRun, herr]
      have htr2 : (shpRun rt data ((i, st) :: rest)).2 =
          (shpRun rt data rest).2 := by
        simp [shpRun, herr]
      refine ⟨htr2.trans ih1, ?_, ?_⟩
      · rw [htr, commitCount_skip_cons, ih2, List.filter_cons]
        simp [herr]
      · intro q2 hq2 hq2err
        rcases List.mem_cons.mp hq2 with heq | hmem
        · subst heq
          rw [htr]
          exact List.mem_cons_self _ _
        · rw [htr]
          exact List.mem_cons_of_mem _ (ih3 q2 hmem hq2err)
    · have herr' : hasKey st.metadata errorKey = false := by
        simpa using herr
      have hs := hps (i, st) (List.mem_cons_self _ _) herr'
      rcases Option.isSome_iff_exists.mp hs with ⟨f, hf⟩
      rcases Option.bind_eq_some.mp hf with ⟨row, hrow, hfeat⟩
      have hfeat' : featureOf rt row st i = .ok f := by
        cases hx : featureOf rt row st i with
        | error m =>
          rw [hx] at hfeat
          simp [Except.toOption] at hfeat
        | ok a =>
          rw [hx] at hfeat
          simp only [Except.toOption, Option.some.injEq] at hfeat
          rw [hfeat]
      have htr : (shpRun rt data ((i, st) :: rest)).1 =
          Ev.commit i f :: (shpRun rt data rest).1 := by
        simp [shpRun, herr', hrow, hfeat']
      have htr2 : (shpRun rt data ((i, st) :: rest)).2 =
          (shpRun rt data rest).2 := by
        simp [shpRun, herr', hrow, hfeat']
      refine ⟨htr2.trans ih1, ?_, ?_⟩
      · rw [htr, commitCount_commit_cons, ih2, List.filter_cons]
        simp [herr']
      · intro q2 hq2 hq2err
        rcases List.mem_cons.mp hq2 with heq | hmem
        · subst heq
          exact absurd hq2err (by simp [herr'])
        · rw [htr]
          exact List.mem_cons_of_mem _ (ih3 q2 hmem hq2err)

/-- C4: a metadata response carrying a top-level `'error'` key is stored as
the Station's metadata (the error payload itself), and export skips every
error-flagged station with a diagnostic naming it while committing exactly
one feature per non-errored station, so the committed-feature count equals
the number of non-errored stations — not the number of parsed records. -/
theorem error_station_excluded :
    (∀ (sid : Line) (resp : JObj), hasKey resp errorKey = true →
      get_station sid resp = some ⟨sid, resp⟩)
    ∧ ∀ (rt : RType) (p : Bool) (data : List ParsedRow)
        (stns : List Station),
        (∀ q ∈ stns.enum, hasKey q.2.metadata errorKey = false →
          ((data[q.1]?).bind
            (fun row => (featureOf rt row q.2 q.1).toOption)).isSome = true) →
        (create_shapefile rt p data stns).2 = none
        ∧ commitCount (create_shapefile rt p data stns).1 =
            (stns.filter (fun st => !(hasKey st.metadata errorKey))).length
        ∧ ∀ q ∈ stns.enum, hasKey q.2.metadata errorKey = true →
            Ev.skip q.1 q.2.station_id ∈
              (create_shapefile rt p data stns).1 := by
  constructor
  · intro sid resp h
    unfold get_station
    rw [if_pos h, convertFields_id]
  · intro rt p data stns hps
    rcases shpRun_ok rt data stns.enum hps with ⟨h1, h2, h3⟩
    have hparts := create_shapefile_parts rt p data stns
    refine ⟨hparts.2.trans h1, ?_, ?_⟩
    · rw [hparts.1, commitCount_append, commitCount_pre, Nat.zero_add, h2]
      exact enumFrom_filter_length
        (fun st => !(hasKey st.metadata errorKey)) 0 stns
    · intro q hq hqerr
      rw [hparts.1]
      exact List.mem_append_right _ (h3 q hq hqerr)

/-- C4 witness: with one good and one errored station, export commits one
feature (not two, the record count) and skips the errored station by
name. -/
theorem error_station_excluded_witness :
    get_station ("9999999".data) respErrW = some ⟨"9999999".data, respErrW⟩
    ∧ (create_shapefile .invalid false [rowInvW, rowInvW]
        [stnGoodW, stnErrW]).2 = none
    ∧ commitCount ((create_shapefile .invalid false [rowInvW, rowInvW]
        [stnGoodW, stnErrW]).1) = 1
    ∧ Ev.skip 1 ("9999999".data) ∈
        (create_shapefile .invalid false [rowInvW, rowInvW]
          [stnGoodW, stnErrW]).1 := by
  have ha := error_station_excluded.1 ("9999999".data) respErrW (by decide)
  have hb := error_station_excluded.2 RType.invalid false [rowInvW, rowInvW]
    [stnGoodW, stnErrW] (by decide)
  refine ⟨ha, hb.1, hb.2.1.trans (by decide), ?_⟩
  have hm := hb.2.2 (1, stnErrW) (by decide) (by decide)
  simpa using hm

theorem featureOf_unsupported {rt : RType}
    (hrt : rt = RType.qc_flat ∨ rt = RType.data_source)
    (row : ParsedRow) (st : Station) (i : Nat)
    (hm : goodMetaB st.metadata = true) :
    featureOf rt row st i = .error "Report type not supported!" := by
  simp only [goodMetaB, Bool.and_eq_true] at hm
  obtain ⟨⟨⟨hlon, hlat⟩, hid⟩, hname⟩ := hm
  rcases Option.isSome_iff_exists.mp hlon with ⟨lv, hlv⟩
  rcases Option.bind_eq_some.mp hlv with ⟨lonS, hlonS, hlonF⟩
  rcases Option.isSome_iff_exists.mp hlat with ⟨av, hav⟩
  rcases Option.bind_eq_some.mp hav with ⟨latS, hlatS, hlatF⟩
  rcases Option.isSome_iff_exists.mp hid with ⟨iv, hiv⟩
  rcases Option.isSome_iff_exists.mp hname with ⟨nv, hnv⟩
  rcases hrt with rfl | rfl <;> cases row <;>
    simp [featureOf, hlonS, hlonF, hlatS, hlatF, hiv, hnv]

theorem shpRun_unsup (rt : RType)
    (hrt : rt = RType.qc_flat ∨ rt = RType.data_source)
    (data : List ParsedRow) (stj : Station) (s2 : List Station)
    (hj : hasKey stj.metadata errorKey = false)
    (hm : goodMetaB stj.metadata = true) :
    ∀ (s1 : List Station) (n : Nat),
      (∀ st ∈ s1, hasKey st.metadata errorKey = true) →
      (data[n + s1.length]?).isSome = true →
      (shpRun rt data (List.enumFrom n (s1 ++ stj :: s2))).2 =
        some "Report type not supported!"
      ∧ ∀ i f, Ev.commit i f ∉
          (shpRun rt data (List.enumFrom n (s1 ++ stj :: s2))).1 := by
  intro s1
  induction s1 with
  | nil =>
    intro n h1 hd
    rcases Option.isSome_iff_exists.mp (by simpa using hd) with ⟨row, hrow⟩
    have hfe := featureOf_unsupported hrt row stj n hm
    have htr : shpRun rt data (List.enumFrom n ([] ++ stj :: s2)) =
        ([], some "Report type not supported!") := by
      simp [List.enumFrom, shpRun, hj, hrow, hfe]
    rw [htr]
    exact ⟨rfl, by simp⟩
  | cons st s1' ih =>
    intro n h1 hd
    have hst : hasKey st.metadata errorKey = true := h1 st (by simp)
    have hd' : (data[(n + 1) + s1'.length]?).isSome = true := by
      have harith : (n + 1) + s1'.length = n + (st :: s1').length := by
        simp only [List.length_cons]
        omega
      rw [harith]
      exact hd
    rcases ih (n + 1) (fun st2 h2 => h1 st2 (by simp [h2])) hd' with ⟨ih1, ih2⟩
    have htr :
        (shpRun rt data (List.enumFrom n ((st :: s1') ++ stj :: s2))).1 =
          Ev.skip n st.station_id ::
            (shpRun rt data (List.enumFrom (n + 1) (s1' ++ stj :: s2))).1 := by
      simp [List.enumFrom, shpRun, hst]
    have htr2 :
        (shpRun rt data (List.enumFrom n ((st :: s1') ++ stj :: s2))).2 =
          (shpRun rt data (List.enumFrom (n + 1) (s1' ++ stj :: s2))).2 := by
      simp [List.enumFrom, shpRun, hst]
    refine ⟨htr2.trans ih1, ?_⟩
    intro i f
    rw [htr]
    intro hmem
    rcases List.mem_cons.mp hmem with heq | hmem2
    · exact Ev.noConfusion heq
    · exact ih2 i f hmem2

/-- C5 (amended): exporting a report of an unsupported type first deletes
any pre-existing output and creates the new data source and layer; then,
at the first station that is not error-flagged (and whose metadata parses),
the attribute-assignment switch raises
`NameError('Report type not supported!')` before any feature has been
committed to the layer.  The output data source for the unknown type is
thus created (and prior output deleted) before the raise; and if every
station is errored, no error is raised at all (see the counterexample). -/
theorem create_shapefile_unsupported (rt : RType)
    (hrt : rt = RType.qc_flat ∨ rt = RType.data_source) (p : Bool)
    (data : List ParsedRow) (s1 s2 : List Station) (stj : Station)
    (h1 : ∀ st ∈ s1, hasKey st.metadata errorKey = true)
    (hj : hasKey stj.metadata errorKey = false)
    (hm : goodMetaB stj.metadata = true)
    (hd : (data[s1.length]?).isSome = true) :
    (create_shapefile rt p data (s1 ++ stj :: s2)).2 =
      some "Report type not supported!"
    ∧ (∀ i f, Ev.commit i f ∉
        (create_shapefile rt p data (s1 ++ stj :: s2)).1)
    ∧ Ev.createSource ∈ (create_shapefile rt p data (s1 ++ stj :: s2)).1
    ∧ (p = true →
        Ev.deleteSource ∈ (create_shapefile rt p data (s1 ++ stj :: s2)).1) := by
  have hr := shpRun_unsup rt hrt data stj s2 hj hm s1 0 h1 (by simpa using hd)
  have hparts := create_shapefile_parts rt p data (s1 ++ stj :: s2)
  refine ⟨hparts.2.trans hr.1, ?_, ?_, ?_⟩
  · intro i f
    rw [hparts.1]
    intro hmem
    rcases List.mem_append.mp hmem with hpre | hrun
    · cases p <;> simp at hpre
    · exact hr.2 i f hrun
  · rw [hparts.1]
    refine List.mem_append_left _ ?_
    cases p <;> simp
  · intro hp
    subst hp
    rw [hparts.1]
    exact List.mem_append_left _ (by simp)

/-- C5 counterexample: with one non-errored station, exporting a `qc_flat`
report does raise `Report type not supported!`, but only after the
pre-existing output was deleted and the new data source created — the
filesystem output is created and modified before the raise; and with only
errored stations no raise happens at all, so an (empty) output for the
unknown type is written. -/
theorem create_shapefile_unsupported_counterexample :
    ((create_shapefile .qc_flat true [rowInvW] [stnGoodW]).2 =
       some "Report type not supported!"
     ∧ Ev.deleteSource ∈ (create_shapefile .qc_flat true [rowInvW]
         [stnGoodW]).1
     ∧ Ev.createSource ∈ (create_shapefile .qc_flat true [rowInvW]
         [stnGoodW]).1)
    ∧ (create_shapefile .qc_flat false [rowInvW] [stnErrW]).2 = none := by
  decide

/-- C5 witness for the amended statement: the raise happens at the first
non-errored station, no feature is committed, and the data source was
created first. -/
theorem create_shapefile_unsupported_witness :
    (create_shapefile .data_source false [rowInvW, rowInvW]
       ([stnErrW] ++ stnGoodW :: [])).2 = some "Report type not supported!"
    ∧ Ev.createSource ∈ (create_shapefile .data_source false
        [rowInvW, rowInvW] ([stnErrW] ++ stnGoodW :: [])).1 := by
  have h := create_shapefile_unsupported RType.data_source (Or.inr rfl) false
    [rowInvW, rowInvW] [stnErrW] [] stnGoodW
    (by decide) (by decide) (by decide) (by decide)
  exact ⟨h.1, h.2.2.1⟩

theorem lsRun_spec (env : Line → JObj) :
    ∀ data : List ParsedRow,
      (∀ r ∈ data,
        (get_station (rowStation r) (env (rowStation r))).isSome = true) →
      (lsRun env data).1 = data.map rowStation
      ∧ ∃ sts, (lsRun env data).2 = some sts
          ∧ sts.length = data.length
          ∧ ∀ (i : Nat) (st2 : Station), sts[i]? = some st2 →
              ∃ r, data[i]? = some r
                ∧ get_station (rowStation r) (env (rowStation r)) =
                    some st2 := by
  intro data
  induction data with
  | nil =>
    intro _
    exact ⟨rfl, [], rfl, rfl, by simp⟩
  | cons r rs ih =>
    intro h
    rcases Option.isSome_iff_exists.mp (h r (by simp)) with ⟨st0, hst0⟩
    rcases ih (fun x hx => h x (by simp [hx])) with ⟨ih1, sts, ih2, ih3, ih4⟩
    constructor
    · simp [lsRun, hst0, ih1]
    · refine ⟨st0 :: sts, ?_, ?_, ?_⟩
      · simp [lsRun, hst0, ih2]
      · simp [ih3]
      · intro i st2 hi
        cases i with
        | zero =>
          simp only [List.getElem?_cons_zero, Option.some.injEq] at hi
          subst hi
          exact ⟨r, by simp, hst0⟩
        | succ m =>
          simp only [List.getElem?_cons_succ] at hi
          rcases ih4 m st2 hi with ⟨r2, hr2, hg⟩
          exact ⟨r2, by simpa using hr2, hg⟩

/-- C8: `list_stations` appends exactly one Station object per parsed
record, in record order, with no deduplication, and issues one metadata
fetch per record — a station ID occurring in k records is fetched k times
and yields k Station entries. -/
theorem list_stations_per_record (env : Line → JObj) (data : List ParsedRow)
    (s0 : List Station)
    (h : ∀ r ∈ data,
      (get_station (rowStation r) (env (rowStation r))).isSome = true) :
    (list_stations env data s0).1 = data.map rowStation
    ∧ (∀ sid : Line,
        (((list_stations env data s0).1).countP (fun x => x = sid)) =
          data.countP (fun r => rowStation r = sid))
    ∧ ∃ sts, (list_stations env data s0).2 = some sts
        ∧ sts.length = s0.length + data.length
        ∧ ∀ (i : Nat) (st2 : Station), sts[s0.length + i]? = some st2 →
            ∃ r, data[i]? = some r ∧ st2.station_id = rowStation r := by
  rcases lsRun_spec env data h with ⟨h1, sts, h2, h3, h4⟩
  have hfst : (list_stations env data s0).1 = data.map rowStation := h1
  refine ⟨hfst, ?_, s0 ++ sts, ?_, ?_, ?_⟩
  · intro sid
    rw [hfst, List.countP_map]
    rfl
  · show ((lsRun env data).2).map (fun l => s0 ++ l) = some (s0 ++ sts)
    rw [h2]
    rfl
  · simp [h3]
  · intro i st2 hi
    rw [List.getElem?_append_right (by omega)] at hi
    have harith : s0.length + i - s0.length = i := by omega
    rw [harith] at hi
    rcases h4 i st2 hi with ⟨r2, hr2, hg⟩
    exact ⟨r2, hr2, get_station_id hg⟩

/-- C8 witness: the same station ID in two records produces two fetches
and two Station entries. -/
theorem list_stations_per_record_witness :
    (list_stations envW [rowInvW, rowInvW] []).1 =
      ["9414290".data, "9414290".data]
    ∧ (((list_stations envW [rowInvW, rowInvW] []).1).countP
        (fun x => x = "9414290".data)) = 2
    ∧ ∃ sts, (list_stations envW [rowInvW, rowInvW] []).2 = some sts
        ∧ sts.length = 2
        ∧ ∀ (i : Nat) (st2 : Station),
            sts[(([] : List Station)).length + i]? = some st2 →
            ∃ r, [rowInvW, rowInvW][i]? = some r
              ∧ st2.station_id = rowStation r := by
  have h := list_stations_per_record envW [rowInvW, rowInvW] [] (by decide)
  refine ⟨h.1.trans (by decide),
    (h.2.1 ("9414290".data)).trans (by decide), ?_⟩
  rcases h.2.2 with ⟨sts, ha, hb, hc⟩
  exact ⟨sts, ha, hb, hc⟩

end PyQCReps
